import Mathlib

/-!
Verification of the `AncoreAccount` contract
(`src/contracts/account/src/lib.rs`) against its specification.

Shallow embedding notes:
- `Address` (Soroban `Address`), `PubKey` (`BytesN<32>`), `Symbol`
  (`soroban_sdk::Symbol`) and `Val` (`soroban_sdk::Val`) are opaque
  identifiers, modelled as natural numbers; the contract never inspects
  their contents.
- The two storage tiers are modelled by a `Storage` record: the instance
  tier holds the `Owner` and `Nonce` keys (fields `owner` and `nonce`,
  each `Option` because a key may be absent), and the persistent tier
  holds the `SessionKey(pk)` bindings (field `sessions`, an association
  list with key-value store semantics).
- `u64` and `u32` values are modelled as `Nat`; the nonce increment
  `current_nonce + 1` cannot reach the `u64` bound within fewer than
  `2^64` invocations, so overflow is out of reach on every trace
  considered here.
- The host authorization primitive `owner.require_auth()` is outside
  this repository; following the specification, the invocation context
  is a predicate telling which identities the current invocation is
  authorized as, and denial aborts the whole invocation with the
  structured `Unauthorized` error.
- Fallible entry points return `Except ContractError (α × Storage)`;
  the host substrate commits all writes on success and discards all
  writes on failure, which `post` makes explicit.
-/

namespace Ancore

/-- Opaque on-ledger identity (Soroban `Address`). -/
abbrev Address := Nat

/-- Opaque fixed-size credential identifier (`BytesN<32>`). -/
abbrev PubKey := Nat

/-- Opaque function selector (`soroban_sdk::Symbol`). -/
abbrev Symbol := Nat

/-- Opaque host value (`soroban_sdk::Val`). -/
abbrev Val := Nat

/-- Embeds the `ContractError` enum of the contract. -/
inductive ContractError where
  | AlreadyInitialized
  | NotInitialized
  | Unauthorized
  | InvalidNonce
  | SessionKeyNotFound
  | SessionKeyExpired
  | InsufficientPermission
deriving DecidableEq, Repr

/-- Embeds the `SessionKey` record type of the contract. -/
structure SessionKey where
  public_key : PubKey
  expires_at : Nat
  permissions : List Nat
deriving DecidableEq, Repr

/-- Lookup in the persistent session-key store
(`env.storage().persistent().get(&DataKey::SessionKey(pk))`). -/
def skGet : List (PubKey × SessionKey) → PubKey → Option SessionKey
  | [], _ => none
  | (k, v) :: rest, pk => if k = pk then some v else skGet rest pk

/-- Removal from the persistent session-key store
(`env.storage().persistent().remove(&DataKey::SessionKey(pk))`). -/
def skRemove : List (PubKey × SessionKey) → PubKey → List (PubKey × SessionKey)
  | [], _ => []
  | (k, v) :: rest, pk =>
      if k = pk then skRemove rest pk else (k, v) :: skRemove rest pk

/-- Write to the persistent session-key store
(`env.storage().persistent().set(&DataKey::SessionKey(pk), &v)`):
the new binding replaces any existing binding for the same key. -/
def skSet (m : List (PubKey × SessionKey)) (pk : PubKey) (v : SessionKey) :
    List (PubKey × SessionKey) :=
  (pk, v) :: skRemove m pk

/-- The contract storage: the instance tier carries the `Owner` and
`Nonce` keys, the persistent tier carries the `SessionKey(pk)` bindings. -/
structure Storage where
  owner : Option Address
  nonce : Option Nat
  sessions : List (PubKey × SessionKey)
deriving DecidableEq, Repr

/-- Host authorization primitive (`owner.require_auth()`), outside this
repository. Modelled from the spec: the invocation context `ctx` tells
which identities the invocation is authorized as; denial aborts the whole
invocation with the structured `Unauthorized` error. -/
def require_auth (ctx : Address → Bool) (a : Address) :
    Except ContractError Unit :=
  if ctx a then .ok () else .error .Unauthorized

/-- Embeds `AncoreAccount::initialize`: fails `AlreadyInitialized` when an
owner is stored, otherwise stores the owner and sets the nonce to 0. -/
def initAccount (s : Storage) (owner : Address) :
    Except ContractError (Unit × Storage) :=
  if s.owner.isSome then .error .AlreadyInitialized
  else .ok ((), ⟨some owner, some 0, s.sessions⟩)

/-- Embeds `AncoreAccount::get_owner`: the stored owner, or
`NotInitialized` when absent. -/
def get_owner (s : Storage) : Except ContractError Address :=
  match s.owner with
  | some o => .ok o
  | none => .error .NotInitialized

/-- Embeds `AncoreAccount::get_nonce`: the stored nonce, defaulting to 0
when the key was never written; it never fails. -/
def get_nonce (s : Storage) : Except ContractError Nat :=
  .ok (s.nonce.getD 0)

/-- Embeds `AncoreAccount::execute` as written in the source: resolve the
owner, require authorization, then increment the nonce and return
`Ok(true)`. The source marks signature validation, the nonce check and
the cross-contract call as TODO; the `_to`, `_function` and `_args`
arguments are never read, and no `expected_nonce` argument exists. -/
def execute (ctx : Address → Bool) (s : Storage) (_to : Address)
    (_function : Symbol) (_args : List Val) :
    Except ContractError (Bool × Storage) :=
  match get_owner s with
  | .error e => .error e
  | .ok owner =>
    match require_auth ctx owner with
    | .error e => .error e
    | .ok _ =>
      match get_nonce s with
      | .error e => .error e
      | .ok current_nonce =>
          .ok (true, ⟨s.owner, some (current_nonce + 1), s.sessions⟩)

/-- Embeds `AncoreAccount::add_session_key`: resolve the owner, require
authorization, then write the record keyed by `public_key`. -/
def add_session_key (ctx : Address → Bool) (s : Storage) (public_key : PubKey)
    (expires_at : Nat) (permissions : List Nat) :
    Except ContractError (Unit × Storage) :=
  match get_owner s with
  | .error e => .error e
  | .ok owner =>
    match require_auth ctx owner with
    | .error e => .error e
    | .ok _ =>
        .ok ((), ⟨s.owner, s.nonce,
          skSet s.sessions public_key ⟨public_key, expires_at, permissions⟩⟩)

/-- Embeds `AncoreAccount::revoke_session_key`: resolve the owner, require
authorization, then remove the record keyed by `public_key`. -/
def revoke_session_key (ctx : Address → Bool) (s : Storage)
    (public_key : PubKey) : Except ContractError (Unit × Storage) :=
  match get_owner s with
  | .error e => .error e
  | .ok owner =>
    match require_auth ctx owner with
    | .error e => .error e
    | .ok _ => .ok ((), ⟨s.owner, s.nonce, skRemove s.sessions public_key⟩)

/-- Embeds `AncoreAccount::get_session_key`: pure lookup, no
authorization, no failure. -/
def get_session_key (s : Storage) (public_key : PubKey) : Option SessionKey :=
  skGet s.sessions public_key

/-- All-or-nothing commit of the storage substrate (spec section 5): the
storage after an invocation is the new storage on success, and the
original storage when the invocation fails (all writes discarded). -/
def post {α : Type} (s : Storage) :
    Except ContractError (α × Storage) → Storage
  | .ok (_, s2) => s2
  | .error _ => s

/-- One entry-point invocation of the contract, with the authorization
context the host supplies for that invocation. -/
inductive Op where
  | init (owner : Address)
  | exec (ctx : Address → Bool) (tgt : Address) (f : Symbol) (args : List Val)
  | addKey (ctx : Address → Bool) (pk : PubKey) (expires_at : Nat)
      (perms : List Nat)
  | revokeKey (ctx : Address → Bool) (pk : PubKey)
  | readOwner
  | readNonce
  | readKey (pk : PubKey)

/-- Storage after one invocation, with the substrate commit/abort
semantics applied; read-only entry points leave the storage unchanged. -/
def stepStorage (s : Storage) : Op → Storage
  | .init o => post s (initAccount s o)
  | .exec ctx tgt f args => post s (execute ctx s tgt f args)
  | .addKey ctx pk t perms => post s (add_session_key ctx s pk t perms)
  | .revokeKey ctx pk => post s (revoke_session_key ctx s pk)
  | .readOwner => s
  | .readNonce => s
  | .readKey _ => s

/-- Whether an invocation is a successful `execute`. -/
def execSuccess (s : Storage) : Op → Bool
  | .exec ctx tgt f args =>
      match execute ctx s tgt f args with
      | .ok _ => true
      | .error _ => false
  | _ => false

/-- Storage after a sequence of invocations. -/
def runOps (s : Storage) : List Op → Storage
  | [] => s
  | op :: rest => runOps (stepStorage s op) rest

/-- Number of successful `execute` invocations along a sequence. -/
def countExecSuccess (s : Storage) : List Op → Nat
  | [] => 0
  | op :: rest =>
      (if execSuccess s op then 1 else 0)
        + countExecSuccess (stepStorage s op) rest

/-- Claim C1: the claim says an `execute` call whose `expected_nonce`
differs from the stored nonce fails with `InvalidNonce` and leaves the
nonce unchanged. The code has no `expected_nonce` argument and no nonce
check at all: at the failing input of the contract test
`test_execute_rejects_invalid_nonce` (initialized account, nonce 0,
owner authorized, intended `expected_nonce` of 1), `execute` succeeds
with `Ok(true)` and advances the nonce to 1 instead of failing. -/
theorem execute_has_no_nonce_check :
    execute (fun _ => true) ⟨some 7, some 0, []⟩ 5 0 [] =
      .ok (true, ⟨some 7, some 1, []⟩) := rfl

/-- Claim C2: the claim says the nonce advances exactly when owner
authorization, the nonce match and the delegated call all succeed. The
code performs no nonce match and no delegated call: on an initialized,
owner-authorized account with nonce 3, `execute` advances the nonce to 4
and returns `Ok(true)` for two different targets, selectors and argument
lists alike — no dispatch to the target can fail because none occurs. -/
theorem execute_advances_without_dispatch :
    execute (fun a => a == 7) ⟨some 7, some 3, []⟩ 9 1 [2] =
      .ok (true, ⟨some 7, some 4, []⟩)
    ∧ execute (fun a => a == 7) ⟨some 7, some 3, []⟩ 10 2 [] =
      .ok (true, ⟨some 7, some 4, []⟩) := ⟨rfl, rfl⟩

/-- Claim C3: in the code as written, `execute` performs no external
dispatch: on every initialized account whose owner authorization passes,
it returns `Ok(true)` and its only state effect is setting the nonce to
its previous value plus 1, and its outcome is identical for every choice
of target, selector and arguments. -/
theorem execute_no_dispatch (s : Storage) (ctx : Address → Bool)
    (o : Address) (hown : s.owner = some o) (hctx : ctx o = true)
    (tgt tgt2 : Address) (f f2 : Symbol) (args args2 : List Val) :
    execute ctx s tgt f args =
      .ok (true, ⟨s.owner, some (s.nonce.getD 0 + 1), s.sessions⟩)
    ∧ execute ctx s tgt f args = execute ctx s tgt2 f2 args2 := by
  simp [execute, get_owner, require_auth, get_nonce, hown, hctx]

/-- Witness for C3 at a concrete initialized, authorized state. -/
theorem execute_no_dispatch_witness :
    execute (fun _ => true) ⟨some 2, some 5, []⟩ 3 4 [1] =
      .ok (true, ⟨some 2, some 6, []⟩) := by
  have h := execute_no_dispatch ⟨some 2, some 5, []⟩ (fun _ => true) 2
    rfl rfl 3 9 4 8 [1] []
  exact h.1

/-- Claim C4: `execute`, `add_session_key` and `revoke_session_key`
invoked without valid owner authorization fail with the structured
`Unauthorized` error, and the post-invocation storage is unchanged. -/
theorem unauthorized_no_mutation (s : Storage) (ctx : Address → Bool)
    (o : Address) (hown : s.owner = some o) (hctx : ctx o = false)
    (tgt : Address) (f : Symbol) (args : List Val) (pk : PubKey) (t : Nat)
    (perms : List Nat) :
    (execute ctx s tgt f args = .error .Unauthorized
      ∧ post s (execute ctx s tgt f args) = s)
    ∧ (add_session_key ctx s pk t perms = .error .Unauthorized
      ∧ post s (add_session_key ctx s pk t perms) = s)
    ∧ (revoke_session_key ctx s pk = .error .Unauthorized
      ∧ post s (revoke_session_key ctx s pk) = s) := by
  simp [execute, add_session_key, revoke_session_key, get_owner,
    require_auth, post, hown, hctx]

/-- Witness for C4 at a concrete state with authorization denied. -/
theorem unauthorized_no_mutation_witness :
    execute (fun _ => false) ⟨some 1, some 0, []⟩ 2 3 [] =
      .error .Unauthorized
    ∧ add_session_key (fun _ => false) ⟨some 1, some 0, []⟩ 4 5 [6] =
      .error .Unauthorized
    ∧ revoke_session_key (fun _ => false) ⟨some 1, some 0, []⟩ 4 =
      .error .Unauthorized := by
  have h := unauthorized_no_mutation ⟨some 1, some 0, []⟩ (fun _ => false) 1
    rfl rfl 2 3 [] 4 5 [6]
  exact ⟨h.1.1, h.2.1.1, h.2.2.1⟩

/-- Claim C5: on an uninitialized account, `initAccount` stores the owner
and sets the nonce to 0; every second call — for any argument, equal or
not — fails `AlreadyInitialized`, leaves the storage unchanged, and
`get_owner` still returns the original owner. -/
theorem init_single_shot (s : Storage) (hun : s.owner = none)
    (o o2 : Address) :
    initAccount s o = .ok ((), ⟨some o, some 0, s.sessions⟩)
    ∧ initAccount ⟨some o, some 0, s.sessions⟩ o2 =
        .error .AlreadyInitialized
    ∧ post ⟨some o, some 0, s.sessions⟩
        (initAccount ⟨some o, some 0, s.sessions⟩ o2) =
        ⟨some o, some 0, s.sessions⟩
    ∧ get_owner ⟨some o, some 0, s.sessions⟩ = .ok o
    ∧ get_nonce ⟨some o, some 0, s.sessions⟩ = .ok 0 := by
  simp [initAccount, post, get_owner, get_nonce, hun]

/-- Witness for C5: a fresh account, re-initialized with the same owner. -/
theorem init_single_shot_witness :
    initAccount ⟨none, none, []⟩ 3 = .ok ((), ⟨some 3, some 0, []⟩)
    ∧ initAccount ⟨some 3, some 0, []⟩ 3 = .error .AlreadyInitialized
    ∧ get_owner ⟨some 3, some 0, []⟩ = .ok 3 := by
  have h := init_single_shot ⟨none, none, []⟩ rfl 3 3
  exact ⟨h.1, h.2.1, h.2.2.2.1⟩

/-- Looking up the key just written returns the written record. -/
theorem skGet_skSet (m : List (PubKey × SessionKey)) (pk : PubKey)
    (v : SessionKey) : skGet (skSet m pk v) pk = some v := by
  simp [skSet, skGet]

/-- Looking up the key just removed returns nothing. -/
theorem skGet_skRemove (m : List (PubKey × SessionKey)) (pk : PubKey) :
    skGet (skRemove m pk) pk = none := by
  induction m with
  | nil => rfl
  | cons a rest ih =>
      obtain ⟨k, v⟩ := a
      by_cases hk : k = pk <;> simp [skRemove, skGet, hk, ih]

/-- Removing an absent key leaves the store unchanged. -/
theorem skRemove_absent (m : List (PubKey × SessionKey)) (pk : PubKey)
    (habs : skGet m pk = none) : skRemove m pk = m := by
  induction m with
  | nil => rfl
  | cons a rest ih =>
      obtain ⟨k, v⟩ := a
      by_cases hk : k = pk
      · simp [skGet, hk] at habs
      · simp [skGet, hk] at habs
        simp [skRemove, hk, ih habs]

/-- Claim C7: on an initialized, owner-authorized account,
`add_session_key pk t perms` succeeds and a subsequent
`get_session_key pk` returns exactly the record with fields `pk`, `t`
and `perms`; `revoke_session_key pk` succeeds and a subsequent
`get_session_key pk` returns nothing. -/
theorem session_key_roundtrip (s : Storage) (ctx : Address → Bool)
    (o : Address) (hown : s.owner = some o) (hctx : ctx o = true)
    (pk : PubKey) (t : Nat) (perms : List Nat) :
    add_session_key ctx s pk t perms =
      .ok ((), ⟨s.owner, s.nonce, skSet s.sessions pk ⟨pk, t, perms⟩⟩)
    ∧ get_session_key ⟨s.owner, s.nonce, skSet s.sessions pk ⟨pk, t, perms⟩⟩
        pk = some ⟨pk, t, perms⟩
    ∧ revoke_session_key ctx s pk =
      .ok ((), ⟨s.owner, s.nonce, skRemove s.sessions pk⟩)
    ∧ get_session_key ⟨s.owner, s.nonce, skRemove s.sessions pk⟩ pk =
      none := by
  refine ⟨?_, ?_, ?_, ?_⟩
  · simp [add_session_key, get_owner, require_auth, hown, hctx]
  · simpa [get_session_key] using skGet_skSet s.sessions pk ⟨pk, t, perms⟩
  · simp [revoke_session_key, get_owner, require_auth, hown, hctx]
  · simpa [get_session_key] using skGet_skRemove s.sessions pk

/-- Witness for C7 at a concrete authorized account. -/
theorem session_key_roundtrip_witness :
    add_session_key (fun _ => true) ⟨some 1, some 0, []⟩ 9 100 [2, 2] =
      .ok ((), ⟨some 1, some 0, [(9, ⟨9, 100, [2, 2]⟩)]⟩)
    ∧ get_session_key ⟨some 1, some 0, [(9, ⟨9, 100, [2, 2]⟩)]⟩ 9 =
      some ⟨9, 100, [2, 2]⟩
    ∧ revoke_session_key (fun _ => true) ⟨some 1, some 0, []⟩ 9 =
      .ok ((), ⟨some 1, some 0, []⟩)
    ∧ get_session_key ⟨some 1, some 0, []⟩ 9 = none := by
  have h := session_key_roundtrip ⟨some 1, some 0, []⟩ (fun _ => true) 1
    rfl rfl 9 100 [2, 2]
  exact ⟨h.1, h.2.1, h.2.2.1, h.2.2.2⟩

/-- Claim C8: `get_nonce` never fails: on every storage — initialized or
not — it returns the stored nonce, defaulting to 0 when the nonce key
was never written, and the invocation leaves the storage unchanged. -/
theorem get_nonce_total (s : Storage) :
    get_nonce s = .ok (s.nonce.getD 0) ∧ stepStorage s .readNonce = s :=
  ⟨rfl, rfl⟩

/-- Claim C9: `add_session_key` validates nothing: on every initialized,
owner-authorized account — whatever record the store already holds for
`pk` — it succeeds for every `expires_at` (timestamps in the past
included) and every `permissions` list, and the store afterwards maps
`pk` to exactly the record with fields `pk`, `t` and `perms`, verbatim. -/
theorem add_session_key_no_validation (s : Storage) (ctx : Address → Bool)
    (o : Address) (hown : s.owner = some o) (hctx : ctx o = true)
    (pk : PubKey) (t : Nat) (perms : List Nat) :
    add_session_key ctx s pk t perms =
      .ok ((), ⟨s.owner, s.nonce, skSet s.sessions pk ⟨pk, t, perms⟩⟩)
    ∧ skGet (skSet s.sessions pk ⟨pk, t, perms⟩) pk =
      some ⟨pk, t, perms⟩ := by
  refine ⟨?_, skGet_skSet s.sessions pk ⟨pk, t, perms⟩⟩
  simp [add_session_key, get_owner, require_auth, hown, hctx]

/-- Witness for C9: an already-expired timestamp (0), duplicate
permission codes, and an existing record for the same key that the call
overwrites. -/
theorem add_session_key_no_validation_witness :
    add_session_key (fun _ => true) ⟨some 1, some 2, [(9, ⟨9, 50, [3]⟩)]⟩
      9 0 [4, 4] =
      .ok ((), ⟨some 1, some 2, [(9, ⟨9, 0, [4, 4]⟩)]⟩)
    ∧ skGet [(9, (⟨9, 0, [4, 4]⟩ : SessionKey))] 9 = some ⟨9, 0, [4, 4]⟩ := by
  have h := add_session_key_no_validation ⟨some 1, some 2, [(9, ⟨9, 50, [3]⟩)]⟩
    (fun _ => true) 1 rfl rfl 9 0 [4, 4]
  exact ⟨h.1, h.2⟩

/-- Claim C10: on an initialized, owner-authorized account, revoking a
public key with no stored record succeeds and returns the storage
literally unchanged. -/
theorem revoke_absent_noop (s : Storage) (ctx : Address → Bool)
    (o : Address) (hown : s.owner = some o) (hctx : ctx o = true)
    (pk : PubKey) (habs : get_session_key s pk = none) :
    revoke_session_key ctx s pk = .ok ((), s) := by
  have hrm : skRemove s.sessions pk = s.sessions :=
    skRemove_absent s.sessions pk habs
  simp [revoke_session_key, get_owner, require_auth, hown, hctx, hrm]
  rw [← hown]

/-- Witness for C10: revoking key 5, absent from a store holding key 9. -/
theorem revoke_absent_noop_witness :
    revoke_session_key (fun _ => true) ⟨some 1, some 0, [(9, ⟨9, 7, []⟩)]⟩ 5 =
      .ok ((), ⟨some 1, some 0, [(9, ⟨9, 7, []⟩)]⟩) :=
  revoke_absent_noop ⟨some 1, some 0, [(9, ⟨9, 7, []⟩)]⟩ (fun _ => true) 1
    rfl rfl 5 rfl

/-- Running an appended sequence runs the two parts in order. -/
theorem runOps_append (s : Storage) (l1 l2 : List Op) :
    runOps s (l1 ++ l2) = runOps (runOps s l1) l2 := by
  induction l1 generalizing s with
  | nil => rfl
  | cons op rest ih => simp [runOps, ih]

/-- One invocation on an account with a stored owner keeps the owner
stored and moves the nonce by exactly the success indicator of
`execute`: up by 1 on a successful `execute`, otherwise not at all. -/
theorem stepStorage_nonce (s : Storage) (op : Op)
    (hown : s.owner.isSome = true) :
    (stepStorage s op).owner.isSome = true
    ∧ (stepStorage s op).nonce.getD 0 =
        s.nonce.getD 0 + (if execSuccess s op then 1 else 0) := by
  obtain ⟨o, ho⟩ := Option.isSome_iff_exists.mp hown
  cases op with
  | init o2 => simp [stepStorage, initAccount, post, execSuccess, ho]
  | exec ctx tgt f args =>
      cases hctx : ctx o with
      | false => simp [stepStorage, execute, get_owner, require_auth,
          get_nonce, post, execSuccess, ho, hctx]
      | true => simp [stepStorage, execute, get_owner, require_auth,
          get_nonce, post, execSuccess, ho, hctx]
  | addKey ctx pk t perms =>
      cases hctx : ctx o <;>
        simp [stepStorage, add_session_key, get_owner, require_auth, post,
          execSuccess, ho, hctx]
  | revokeKey ctx pk =>
      cases hctx : ctx o <;>
        simp [stepStorage, revoke_session_key, get_owner, require_auth,
          post, execSuccess, ho, hctx]
  | readOwner => simp [stepStorage, execSuccess, hown]
  | readNonce => simp [stepStorage, execSuccess, hown]
  | readKey pk => simp [stepStorage, execSuccess, hown]

/-- Along any sequence from an account with a stored owner, the owner
stays stored and the stored nonce grows by exactly the number of
successful `execute` invocations. -/
theorem runOps_nonce (ops : List Op) (s : Storage)
    (hown : s.owner.isSome = true) :
    (runOps s ops).owner.isSome = true
    ∧ (runOps s ops).nonce.getD 0 =
        s.nonce.getD 0 + countExecSuccess s ops := by
  induction ops generalizing s with
  | nil => simp [runOps, countExecSuccess, hown]
  | cons op rest ih =>
      have h := stepStorage_nonce s op hown
      have h2 := ih (stepStorage s op) h.1
      refine ⟨h2.1, ?_⟩
      show (runOps (stepStorage s op) rest).nonce.getD 0 = _
      rw [h2.2, h.2, countExecSuccess, Nat.add_assoc]

/-- Claim C6: starting from an initialized account with nonce 0, after
any sequence of entry-point invocations `get_nonce` returns exactly the
number of successful `execute` invocations in the sequence, and across
any single further invocation the nonce never decreases and never moves
by more than 1. -/
theorem nonce_monotonicity (s : Storage) (o : Address)
    (hown : s.owner = some o) (hn : s.nonce = some 0) :
    (∀ ops, get_nonce (runOps s ops) = .ok (countExecSuccess s ops))
    ∧ (∀ ops op,
        (runOps s ops).nonce.getD 0 ≤ (runOps s (ops ++ [op])).nonce.getD 0
        ∧ (runOps s (ops ++ [op])).nonce.getD 0 ≤
            (runOps s ops).nonce.getD 0 + 1) := by
  have hsome : s.owner.isSome = true := by simp [hown]
  constructor
  · intro ops
    have h := runOps_nonce ops s hsome
    simp [get_nonce, h.2, hn]
  · intro ops op
    have h1 := runOps_nonce ops s hsome
    have h2 := stepStorage_nonce (runOps s ops) op h1.1
    have hstep : runOps (runOps s ops) [op] = stepStorage (runOps s ops) op :=
      rfl
    rw [runOps_append, hstep, h2.2]
    cases execSuccess (runOps s ops) op <;> simp

/-- Witness for C6: four invocations — a successful `execute`, an
`execute` denied authorization, a rejected re-initialization, and a
second successful `execute` — end with `get_nonce` returning 2. -/
theorem nonce_monotonicity_witness :
    get_nonce (runOps ⟨some 1, some 0, []⟩
      [Op.exec (fun _ => true) 2 3 [], Op.exec (fun _ => false) 2 3 [],
       Op.init 9, Op.exec (fun _ => true) 4 5 [6]]) = .ok 2
    ∧ countExecSuccess ⟨some 1, some 0, []⟩
      [Op.exec (fun _ => true) 2 3 [], Op.exec (fun _ => false) 2 3 [],
       Op.init 9, Op.exec (fun _ => true) 4 5 [6]] = 2 := by
  have h := (nonce_monotonicity ⟨some 1, some 0, []⟩ 1 rfl rfl).1
    [Op.exec (fun _ => true) 2 3 [], Op.exec (fun _ => false) 2 3 [],
     Op.init 9, Op.exec (fun _ => true) 4 5 [6]]
  have hc : countExecSuccess (⟨some 1, some 0, []⟩ : Storage)
      [Op.exec (fun _ => true) 2 3 [], Op.exec (fun _ => false) 2 3 [],
       Op.init 9, Op.exec (fun _ => true) 4 5 [6]] = 2 := by decide
  exact ⟨hc ▸ h, hc⟩

end Ancore
